import Mathlib

/-!
Verification of the credential-reset and mail-queue core of the
`base-back-nestjs` repository, shallowly embedded in Lean.

Conventions of the embedding:
* timestamps are milliseconds as `Nat` (the code compares `Date` values);
* the SHA-256 digest of `AuthService.hashToken` and the bcrypt digest are
  kept abstract as explicit function parameters `H` and `bc` (the spec
  treats the hashing primitives abstractly);
* each `await repository.op(...)` in the service is a separate database
  statement — the service never opens a transaction (no `QueryRunner`,
  no `manager.transaction` anywhere in the source), so a step-indexed
  variant of each multi-write operation models executions in which one
  of the statements rejects and every earlier statement's effect persists;
* the BullMQ queue runtime around `MailProcessor` is embedded as a small
  state machine configured by `DEFAULT_MAIL_JOB_OPTIONS`: a thrown plain
  error is retried with exponential backoff while fewer than
  `opts.attempts` attempts have been made, then the job becomes `failed`;
  jobs are purged or retained according to `removeOnComplete` /
  `removeOnFail`.
-/

/-- Token expiration time in minutes (`TOKEN_EXPIRATION_MINUTES` in
`auth.service.ts`). -/
def TOKEN_EXPIRATION_MINUTES : Nat := 15

/-- Row of the `users` table, restricted to the columns the reset flow
touches. -/
structure User where
  id : String
  email : String
  first_name : String
  password : String
  deriving DecidableEq

/-- Row of the `password_reset_tokens` table
(`password-reset-token.entity.ts`). `usedAt = none` models
`used_at IS NULL`. -/
structure PasswordResetToken where
  id : Nat
  userId : String
  tokenHash : String
  expiresAt : Nat
  usedAt : Option Nat
  deriving DecidableEq

/-- Persistent relational state seen by `AuthService`. -/
structure AuthState where
  users : List User
  tokens : List PasswordResetToken
  deriving DecidableEq

/-- Errors thrown by `AuthService` in the reset flow:
`NotFoundException` and `BadRequestException`. -/
inductive AuthError where
  | notFound (msg : String)
  | badRequest (msg : String)
  deriving DecidableEq

/-- Effect of `invalidatePreviousTokens` on a single row: the
`UPDATE ... SET used_at = :now WHERE user_id = :userId AND used_at IS NULL
[AND id != :excludeTokenId]` statement applied to one token. -/
def invalidateToken (userId : String) (excludeTokenId : Option Nat) (now : Nat)
    (t : PasswordResetToken) : PasswordResetToken :=
  if t.userId == userId && t.usedAt.isNone
      && (match excludeTokenId with
          | some e => t.id != e
          | none => true) then
    { t with usedAt := some now }
  else t

/-- `AuthService.invalidatePreviousTokens`: one bulk `UPDATE` over the
token table. -/
def invalidatePreviousTokens (userId : String) (excludeTokenId : Option Nat)
    (now : Nat) (tokens : List PasswordResetToken) : List PasswordResetToken :=
  tokens.map (invalidateToken userId excludeTokenId now)

/-- Effect of `passwordResetTokenRepository.update(resetToken.id,
{ usedAt: new Date() })` on a single row. -/
def markTokenUsed (tokenId : Nat) (now : Nat)
    (t : PasswordResetToken) : PasswordResetToken :=
  if t.id == tokenId then { t with usedAt := some now } else t

/-- Effect of `userRepository.update(resetToken.userId,
{ password: hashedPassword })` on a single row. -/
def updateUserPassword (userId : String) (hashed : String) (u : User) : User :=
  if u.id == userId then { u with password := hashed } else u

/-- Partial executions of `AuthService.requestPasswordReset`. The source
performs, after the user lookup, two separate repository statements with no
enclosing transaction: (1) `invalidatePreviousTokens(userId)` and
(2) `passwordResetTokenRepository.save(resetToken)`. `failAt = k` models the
execution in which the k-th statement rejects before taking effect (earlier
statements remain applied); `failAt = 0` is the fault-free execution.
`plainToken` is the value of `crypto.randomBytes(32).toString('hex')` and
`freshId` the generated primary key, both externalized as inputs. -/
def requestPasswordResetUpTo (H : String → String) (userId plainToken : String)
    (freshId now failAt : Nat) (st : AuthState) : AuthState :=
  match st.users.find? (fun u => u.id == userId) with
  | none => st
  | some user =>
    if failAt == 1 then st
    else
      let st1 : AuthState :=
        { st with tokens := invalidatePreviousTokens userId none now st.tokens }
      if failAt == 2 then st1
      else
        { st1 with tokens := st1.tokens ++
            [{ id := freshId, userId := user.id, tokenHash := H plainToken,
               expiresAt := now + TOKEN_EXPIRATION_MINUTES * 60 * 1000,
               usedAt := none }] }

/-- Fault-free `AuthService.requestPasswordReset`: throws
`NotFoundException('User not found')` when the owner does not exist,
otherwise invalidates all previous tokens and persists the new hashed
token. -/
def requestPasswordReset (H : String → String) (userId plainToken : String)
    (freshId now : Nat) (st : AuthState) : Except AuthError AuthState :=
  match st.users.find? (fun u => u.id == userId) with
  | none => Except.error (AuthError.notFound "User not found")
  | some _ =>
    Except.ok (requestPasswordResetUpTo H userId plainToken freshId now 0 st)

/-- Partial executions of `AuthService.resetPassword`. After the token
lookup the source performs three separate repository statements with no
enclosing transaction: (1) `userRepository.update` of the credential,
(2) `passwordResetTokenRepository.update` setting `usedAt` on the matched
token, (3) `invalidatePreviousTokens(userId, tokenId)` on the sibling
tokens. `failAt = k` models the execution in which the k-th statement
rejects before taking effect; `failAt = 0` is the fault-free execution. -/
def resetPasswordUpTo (H bc : String → String) (token newPassword : String)
    (now failAt : Nat) (st : AuthState) : AuthState :=
  match st.tokens.find? (fun t =>
      t.tokenHash == H token && t.usedAt.isNone && decide (now < t.expiresAt)) with
  | none => st
  | some rt =>
    if failAt == 1 then st
    else
      let st1 : AuthState :=
        { st with users := st.users.map (updateUserPassword rt.userId (bc newPassword)) }
      if failAt == 2 then st1
      else
        let st2 : AuthState :=
          { st1 with tokens := st1.tokens.map (markTokenUsed rt.id now) }
        if failAt == 3 then st2
        else
          { st2 with tokens :=
              invalidatePreviousTokens rt.userId (some rt.id) now st2.tokens }

/-- Fault-free `AuthService.resetPassword`: hashes the incoming token,
looks up a matching unused unexpired row, throws
`BadRequestException('Invalid or expired reset token')` when none exists,
and otherwise runs the three update statements in order. -/
def resetPassword (H bc : String → String) (token newPassword : String)
    (now : Nat) (st : AuthState) : Except AuthError AuthState :=
  match st.tokens.find? (fun t =>
      t.tokenHash == H token && t.usedAt.isNone && decide (now < t.expiresAt)) with
  | none => Except.error (AuthError.badRequest "Invalid or expired reset token")
  | some _ => Except.ok (resetPasswordUpTo H bc token newPassword now 0 st)

/-- `AuthService.validateResetToken`: a single `findOne` with the where
clause `tokenHash, usedAt IS NULL, expiresAt > now`; the call performs no
writes, which the embedding reflects by returning only a `Bool` of the
unchanged state. -/
def validateResetToken (H : String → String) (token : String) (now : Nat)
    (st : AuthState) : Bool :=
  (st.tokens.find? (fun t =>
      t.tokenHash == H token && t.usedAt.isNone && decide (now < t.expiresAt))).isSome

/-- Specification-side predicate, written from the spec words: a stored
token exists with `tokenHash = H(secret)`, `usedAt` null and
`expiresAt > now`. Used to compare the lookup predicates of `validate`
and `consume` against the spec. -/
def validTokenExists (H : String → String) (token : String) (now : Nat)
    (st : AuthState) : Prop :=
  ∃ t ∈ st.tokens, t.tokenHash = H token ∧ t.usedAt = none ∧ now < t.expiresAt

/-- Opening brace character, kept symbolic so that template text stays
readable. -/
def lbrace : Char := Char.ofNat 123

/-- Closing brace character. -/
def rbrace : Char := Char.ofNat 125

/-- Test for the characters matched by the regex class `\s` (ASCII range;
the templates and parameters of this code base contain no exotic
whitespace). -/
def isJsSpace (c : Char) : Bool :=
  c == ' ' || c == '\t' || c == '\n' || c == '\r' || c.toNat == 11 || c.toNat == 12

/-- Test for the characters matched by the regex class `\w`, that is
`[A-Za-z0-9_]`. -/
def isJsWordChar (c : Char) : Bool :=
  c.isAlphanum || c == '_'

/-- Match a literal character sequence at the head of the input, returning
the remainder on success. -/
def stripLiteral : List Char → List Char → Option (List Char)
  | [], cs => some cs
  | _ :: _, [] => none
  | k :: ks, c :: cs => if k == c then stripLiteral ks cs else none

/-- Match the tail `\s* key \s* brace brace` of the substitution regex
`new RegExp("\x7b\x7b\\s*" + key + "\\s*\x7d\x7d", "g")` from
`MailProcessor.loadTemplate`, after the two opening braces have already
been consumed. Returns the input remaining after the match. -/
def matchVarTail (key : List Char) (cs : List Char) : Option (List Char) :=
  match stripLiteral key (cs.dropWhile isJsSpace) with
  | none => none
  | some cs2 =>
    match cs2.dropWhile isJsSpace with
    | c1 :: c2 :: rest => if c1 == rbrace && c2 == rbrace then some rest else none
    | _ => none

/-- Global (leftmost, non-overlapping) replacement of one
`\x7b\x7b\s*key\s*\x7d\x7d` pattern by `value`, the effect of one
iteration of the parameter loop in `loadTemplate`. The `fuel` argument is
always called with the input length and only makes the recursion
structural. -/
def substVarAux (key value : List Char) : Nat → List Char → List Char
  | 0, cs => cs
  | _ + 1, [] => []
  | fuel + 1, c :: cs =>
    if c == lbrace then
      match cs with
      | c2 :: cs2 =>
        if c2 == lbrace then
          match matchVarTail key cs2 with
          | some rest => value ++ substVarAux key value fuel rest
          | none => c :: substVarAux key value fuel cs
        else c :: substVarAux key value fuel cs
      | [] => [c]
    else c :: substVarAux key value fuel cs

/-- Replacement pass for a single template parameter. -/
def substVar (key value cs : List Char) : List Char :=
  substVarAux key value cs.length cs

/-- Match the tail `\s*\w+\s* brace brace` of the cleanup regex
`/\x7b\x7b\s*\w+\s*\x7d\x7d/g` from `loadTemplate`, after the two opening
braces have already been consumed. -/
def matchUnresolvedTail (cs : List Char) : Option (List Char) :=
  let cs1 := cs.dropWhile isJsSpace
  let word := cs1.takeWhile isJsWordChar
  if word.isEmpty then none
  else
    match (cs1.dropWhile isJsWordChar).dropWhile isJsSpace with
    | c1 :: c2 :: rest => if c1 == rbrace && c2 == rbrace then some rest else none
    | _ => none

/-- Global deletion of every remaining `\x7b\x7b\s*\w+\s*\x7d\x7d`
occurrence, the cleanup pass `htmlContent.replace(/.../g, "")` of
`loadTemplate`. `fuel` is always the input length. -/
def removeUnresolvedAux : Nat → List Char → List Char
  | 0, cs => cs
  | _ + 1, [] => []
  | fuel + 1, c :: cs =>
    if c == lbrace then
      match cs with
      | c2 :: cs2 =>
        if c2 == lbrace then
          match matchUnresolvedTail cs2 with
          | some rest => removeUnresolvedAux fuel rest
          | none => c :: removeUnresolvedAux fuel cs
        else c :: removeUnresolvedAux fuel cs
      | [] => [c]
    else c :: removeUnresolvedAux fuel cs

/-- Cleanup pass over a character list. -/
def removeUnresolved (cs : List Char) : List Char :=
  removeUnresolvedAux cs.length cs

/-- Parameter substitution loop of `loadTemplate`:
`for (const [key, value] of Object.entries(params)) ...` in insertion
order. -/
def applyParams (params : List (String × String)) (html : List Char) : List Char :=
  params.foldl (fun acc kv => substVar kv.1.data kv.2.data acc) html

/-- Rendering part of `MailProcessor.loadTemplate`: substitute every
supplied parameter, then delete every placeholder left unresolved. -/
def renderTemplate (body : String) (params : List (String × String)) : String :=
  String.mk (removeUnresolved (applyParams params body.data))

/-- `MailProcessor.loadTemplate`: resolve the template body by name (the
filesystem lookup under `templatesPath` is abstracted into the `templates`
map), render it, and on a failed resolution throw
`Email template '<name>' not found`. -/
def loadTemplate (templates : String → Option String) (templateName : String)
    (params : List (String × String)) : Except String String :=
  match templates templateName with
  | none => Except.error ("Email template \x27" ++ templateName ++ "\x27 not found")
  | some body => Except.ok (renderTemplate body params)

/-- Job data of a `send-email` job (`MailJobData` in `send-mail.dto.ts`);
`params` keeps the insertion order of the JavaScript object. -/
structure MailJobData where
  «to» : String
  subject : String
  template : String
  params : List (String × String)
  deriving DecidableEq

/-- Backoff part of the BullMQ job options. -/
structure BackoffOptions where
  type : String
  delay : Nat
  deriving DecidableEq

/-- BullMQ job options used by the mail queue. -/
structure JobOptions where
  attempts : Nat
  backoff : BackoffOptions
  removeOnComplete : Bool
  removeOnFail : Bool
  deriving DecidableEq

/-- `DEFAULT_MAIL_JOB_OPTIONS` from `mail.queue.ts`. -/
def DEFAULT_MAIL_JOB_OPTIONS : JobOptions :=
  { attempts := 5
    backoff := { type := "exponential", delay := 3000 }
    removeOnComplete := true
    removeOnFail := false }

/-- `MAIL_JOB_NAMES.SEND_EMAIL` from `mail.queue.ts`. -/
def MAIL_JOB_NAMES_SEND_EMAIL : String := "send-email"

/-- States of a BullMQ job (`NotificationJob.state` in the spec). -/
inductive JobState where
  | waiting
  | active
  | completed
  | failed
  | delayed
  deriving DecidableEq

/-- A job record as the queue runtime keeps it. -/
structure QueueJob where
  name : String
  data : MailJobData
  opts : JobOptions
  attemptsMade : Nat
  state : JobState
  deriving DecidableEq

/-- `MailService.enqueueMail`: `mailQueue.add(MAIL_JOB_NAMES.SEND_EMAIL,
jobData, DEFAULT_MAIL_JOB_OPTIONS)` creates a waiting job with no attempts
made. -/
def enqueueMail (dto : MailJobData) : QueueJob :=
  { name := MAIL_JOB_NAMES_SEND_EMAIL
    data := dto
    opts := DEFAULT_MAIL_JOB_OPTIONS
    attemptsMade := 0
    state := JobState.waiting }

/-- Errors a processing attempt can throw, named after the throw sites in
`mail.processor.ts`. -/
inductive MailJobError where
  | templateMissing (templateName : String)
  | brevoError (status : Option Nat)
  deriving DecidableEq

/-- Retry classification of a thrown error. Every throw site in
`mail.processor.ts` constructs a plain `Error`; BullMQ skips retries only
for its `UnrecoverableError` class, which the source never uses, so no
error of this processor is unrecoverable. -/
def errorIsUnrecoverable : MailJobError → Bool := fun _ => false

/-- Outcome reported by the external delivery provider for one attempt
(the Brevo HTTP call, abstracted as an oracle). -/
inductive DeliveryResult where
  | delivered
  | rejected (status : Option Nat)
  deriving DecidableEq

/-- Result of one run of the `process` method. -/
inductive AttemptOutcome where
  | success
  | failure (e : MailJobError)
  deriving DecidableEq

/-- `MailProcessor.handleSendEmail`: load and render the template (a
missing template propagates as a thrown error), then send via Brevo (a
rejected call propagates as a thrown error). -/
def handleSendEmail (templates : String → Option String)
    (delivery : DeliveryResult) (data : MailJobData) : AttemptOutcome :=
  match loadTemplate templates data.template data.params with
  | Except.error _ => AttemptOutcome.failure (MailJobError.templateMissing data.template)
  | Except.ok _ =>
    match delivery with
    | DeliveryResult.delivered => AttemptOutcome.success
    | DeliveryResult.rejected status =>
        AttemptOutcome.failure (MailJobError.brevoError status)

/-- `MailProcessor.process`: dispatch on the job name; `send-email` jobs
run `handleSendEmail`, any other name only logs a warning and returns
normally. -/
def processJob (templates : String → Option String) (delivery : DeliveryResult)
    (j : QueueJob) : AttemptOutcome :=
  if j.name == MAIL_JOB_NAMES_SEND_EMAIL then
    handleSendEmail templates delivery j.data
  else AttemptOutcome.success

/-- BullMQ transition applied after one attempt: success completes the
job; a failure is rescheduled as `delayed` while the error is recoverable
and fewer than `opts.attempts` attempts have been made, and otherwise
moves the job to `failed`. -/
def afterAttempt (j : QueueJob) (outcome : AttemptOutcome) : QueueJob :=
  match outcome with
  | AttemptOutcome.success =>
    { j with attemptsMade := j.attemptsMade + 1, state := JobState.completed }
  | AttemptOutcome.failure e =>
    if errorIsUnrecoverable e || decide (j.opts.attempts ≤ j.attemptsMade + 1) then
      { j with attemptsMade := j.attemptsMade + 1, state := JobState.failed }
    else
      { j with attemptsMade := j.attemptsMade + 1, state := JobState.delayed }

/-- BullMQ exponential backoff: the retry scheduled after the n-th failed
attempt is delayed by `baseDelay * 2 ^ (n - 1)` milliseconds. -/
def exponentialBackoffDelay (baseDelay attemptsMade : Nat) : Nat :=
  baseDelay * 2 ^ (attemptsMade - 1)

/-- States in which the queue will hand the job to a worker again. -/
def isRunnable : JobState → Bool
  | JobState.waiting => true
  | JobState.delayed => true
  | _ => false

/-- Run up to `fuel` attempts of a job, asking the oracle `attempt` for
the outcome of the attempt with the given number of attempts already
made; stops as soon as the job leaves the runnable states. -/
def runAttempts (attempt : Nat → AttemptOutcome) : Nat → QueueJob → QueueJob
  | 0, j => j
  | fuel + 1, j =>
    if isRunnable j.state then
      runAttempts attempt fuel (afterAttempt j (attempt j.attemptsMade))
    else j

/-- Whether a job in a terminal state is kept in the queue store:
completed jobs are purged when `removeOnComplete`, failed jobs are purged
when `removeOnFail`. -/
def retainedAfterRun (j : QueueJob) : Bool :=
  match j.state with
  | JobState.completed => !j.opts.removeOnComplete
  | JobState.failed => !j.opts.removeOnFail
  | _ => true

/-- Concrete user used by witnesses and counterexamples. -/
def cexUser : User :=
  { id := "u1", email := "ana@example.com", first_name := "Ana", password := "oldhash" }

/-- Concrete stand-in for the abstract one-way hash `H`. -/
def cexHash (s : String) : String := s ++ "#h"

/-- Concrete stand-in for the abstract bcrypt digest. -/
def cexBcrypt (s : String) : String := "bcrypt:" ++ s

/-- Concrete unused, unexpired token for `cexUser`, issued from the secret
`sec1`. -/
def cexToken : PasswordResetToken :=
  { id := 1, userId := "u1", tokenHash := cexHash "sec1", expiresAt := 1000, usedAt := none }

/-- Concrete database state: one user, one valid token. -/
def cexState : AuthState := { users := [cexUser], tokens := [cexToken] }

/-- Variant of `cexState` in which the token has already been consumed. -/
def usedState : AuthState :=
  { users := [cexUser], tokens := [{ cexToken with usedAt := some 10 }] }

/-- Concrete job data whose template name resolves to nothing. -/
def ghostMailData : MailJobData :=
  { «to» := "ana@example.com", subject := "Hello", template := "ghost", params := [] }

/-- Template store that resolves no name. -/
def noTemplates : String → Option String := fun _ => none

/-- Template body of the partial-render example. -/
def resetBody : String := "Hi \x7b\x7bfirstName\x7d\x7d, code \x7b\x7bcode\x7d\x7d"

/-- Template store holding exactly the partial-render example body. -/
def resetCodeTemplates : String → Option String :=
  fun n => if n == "reset-code" then some resetBody else none

/-- Body with an unresolved placeholder whose key contains a hyphen. -/
def hyphenBody : String := "A \x7b\x7bfirst-name\x7d\x7d B"

/-- Body with an unresolved placeholder whose key contains a space. -/
def spacedKeyBody : String := "A \x7b\x7buser name\x7d\x7d B"

/-- Body with an unresolved placeholder whose key is a plain word. -/
def wordKeyBody : String := "A \x7b\x7bcode\x7d\x7d B"

/-- Concrete queued job whose name is not `send-email`. -/
def otherJob : QueueJob :=
  { name := "unknown-job"
    data := ghostMailData
    opts := DEFAULT_MAIL_JOB_OPTIONS
    attemptsMade := 0
    state := JobState.waiting }

/-- C1: `resetPassword` is claimed to run its three sub-steps in a single
transaction so that a partial failure never leaves the credential changed
with the token still unconsumed. The source runs three separate repository
statements with no transaction: in the execution in which the second
statement (the `usedAt` update) rejects, the stored credential has already
been replaced while the matched token still has `usedAt = null` — exactly
the forbidden intermediate state. -/
theorem resetPassword_partial_failure_cex :
    (resetPasswordUpTo cexHash cexBcrypt "sec1" "NewPass1" 500 2 cexState).users
      = [{ cexUser with password := "bcrypt:NewPass1" }]
    ∧ (resetPasswordUpTo cexHash cexBcrypt "sec1" "NewPass1" 500 2 cexState).tokens
      = [cexToken]
    ∧ cexToken.usedAt = none := by
  decide

/-- C1 (amended): the three sub-steps of `resetPassword` execute as three
separate sequential repository statements without an enclosing
transaction; a failure partway leaves every earlier statement's effect in
place. In particular, when the token-update statement fails after the
credential update, the users table already carries the new credential
while the token store is completely unchanged (the matched token still
unconsumed). -/
theorem resetPassword_sequential_no_rollback
    (H bc : String → String) (token newPassword : String) (now : Nat)
    (st : AuthState) (rt : PasswordResetToken)
    (hfind : st.tokens.find? (fun t =>
        t.tokenHash == H token && t.usedAt.isNone && decide (now < t.expiresAt))
      = some rt) :
    (resetPasswordUpTo H bc token newPassword now 2 st).users
      = st.users.map (updateUserPassword rt.userId (bc newPassword))
    ∧ (resetPasswordUpTo H bc token newPassword now 2 st).tokens = st.tokens := by
  simp [resetPasswordUpTo, hfind]

/-- Witness for the amended C1 theorem at the concrete state. -/
theorem resetPassword_sequential_no_rollback_witness :
    (resetPasswordUpTo cexHash cexBcrypt "sec1" "NewPass1" 500 2 cexState).users
      = cexState.users.map (updateUserPassword cexToken.userId (cexBcrypt "NewPass1"))
    ∧ (resetPasswordUpTo cexHash cexBcrypt "sec1" "NewPass1" 500 2 cexState).tokens
      = cexState.tokens :=
  resetPassword_sequential_no_rollback cexHash cexBcrypt "sec1" "NewPass1" 500
    cexState cexToken (by decide)

/-- C4: whenever no stored token simultaneously matches the hash, is
unconsumed and is unexpired — which covers the not-found, already-used and
expired cases — `resetPassword` fails with the one error value
`BadRequestException('Invalid or expired reset token')`, so the caller
cannot tell the cases apart. -/
theorem resetPassword_uniform_error
    (H bc : String → String) (s pw : String) (now : Nat) (st : AuthState)
    (h : ∀ t ∈ st.tokens, t.tokenHash = H s → t.usedAt ≠ none ∨ t.expiresAt ≤ now) :
    resetPassword H bc s pw now st
      = Except.error (AuthError.badRequest "Invalid or expired reset token") := by
  have hnone : st.tokens.find? (fun t =>
      t.tokenHash == H s && t.usedAt.isNone && decide (now < t.expiresAt)) = none := by
    rw [List.find?_eq_none]
    intro t ht hp
    simp only [Bool.and_eq_true, beq_iff_eq, Option.isNone_iff_eq_none,
      decide_eq_true_eq] at hp
    obtain ⟨⟨h1, h2⟩, h3⟩ := hp
    rcases h t ht h1 with h4 | h4
    · exact h4 h2
    · omega
  simp [resetPassword, hnone]

/-- Witness for C4: the same error value in the not-found case (unknown
secret), the expired case (`now = 2000` past `expiresAt = 1000`) and the
already-used case. -/
theorem resetPassword_uniform_error_witness :
    resetPassword cexHash cexBcrypt "nosuch" "PwX" 500 cexState
      = Except.error (AuthError.badRequest "Invalid or expired reset token")
    ∧ resetPassword cexHash cexBcrypt "sec1" "PwX" 2000 cexState
      = Except.error (AuthError.badRequest "Invalid or expired reset token")
    ∧ resetPassword cexHash cexBcrypt "sec1" "PwX" 500 usedState
      = Except.error (AuthError.badRequest "Invalid or expired reset token") :=
  ⟨resetPassword_uniform_error cexHash cexBcrypt "nosuch" "PwX" 500 cexState (by decide),
   resetPassword_uniform_error cexHash cexBcrypt "sec1" "PwX" 2000 cexState (by decide),
   resetPassword_uniform_error cexHash cexBcrypt "sec1" "PwX" 500 usedState (by decide)⟩

/-- C7: rendering `Hi \x7b\x7bfirstName\x7d\x7d, code \x7b\x7bcode\x7d\x7d`
with the parameter mapping `firstName = Ana` substitutes the supplied
placeholder, deletes the unresolved one, and yields exactly
`Hi Ana, code `; `loadTemplate` returns this result rather than raising an
error. -/
theorem loadTemplate_partial_render :
    renderTemplate resetBody [("firstName", "Ana")] = "Hi Ana, code "
    ∧ loadTemplate resetCodeTemplates "reset-code" [("firstName", "Ana")]
      = Except.ok (renderTemplate resetBody [("firstName", "Ana")]) := by
  exact ⟨by decide, rfl⟩

/-- C9: the cleanup pass deletes only placeholders whose key consists of
word characters; an unresolved placeholder whose key contains a hyphen or
a space is left verbatim in the output (also when other parameters are
supplied), while a word-character key is removed. -/
theorem cleanup_word_keys_only :
    renderTemplate hyphenBody [] = hyphenBody
    ∧ renderTemplate hyphenBody [("code", "X")] = hyphenBody
    ∧ renderTemplate spacedKeyBody [] = spacedKeyBody
    ∧ renderTemplate wordKeyBody [] = "A  B" := by
  decide

/-- C10: a queued job whose name is not `send-email` completes normally:
`process` only logs a warning and returns without consulting the template
store or the delivery provider, the job transitions to `completed`, and
under `removeOnComplete = true` it is purged rather than failed. -/
theorem process_unknown_job_name_completes
    (j : QueueJob) (templates1 templates2 : String → Option String)
    (d1 d2 : DeliveryResult)
    (hname : j.name ≠ MAIL_JOB_NAMES_SEND_EMAIL)
    (hopts : j.opts = DEFAULT_MAIL_JOB_OPTIONS) :
    processJob templates1 d1 j = AttemptOutcome.success
    ∧ processJob templates1 d1 j = processJob templates2 d2 j
    ∧ (afterAttempt j (processJob templates1 d1 j)).state = JobState.completed
    ∧ retainedAfterRun (afterAttempt j (processJob templates1 d1 j)) = false := by
  have hb : (j.name == MAIL_JOB_NAMES_SEND_EMAIL) = false := by
    simpa using hname
  refine ⟨?_, ?_, ?_, ?_⟩ <;>
    simp [processJob, hb, afterAttempt, retainedAfterRun, hopts,
      DEFAULT_MAIL_JOB_OPTIONS]

/-- Witness for C10 at a concrete job named `unknown-job`. -/
theorem process_unknown_job_name_completes_witness :
    processJob noTemplates DeliveryResult.delivered otherJob = AttemptOutcome.success
    ∧ processJob noTemplates DeliveryResult.delivered otherJob
      = processJob resetCodeTemplates (DeliveryResult.rejected (some 400)) otherJob
    ∧ (afterAttempt otherJob (processJob noTemplates DeliveryResult.delivered otherJob)).state
      = JobState.completed
    ∧ retainedAfterRun
        (afterAttempt otherJob (processJob noTemplates DeliveryResult.delivered otherJob))
      = false :=
  process_unknown_job_name_completes otherJob noTemplates resetCodeTemplates
    DeliveryResult.delivered (DeliveryResult.rejected (some 400)) (by decide) rfl

/-- Invalidation never changes a token's hash. -/
theorem invalidateToken_tokenHash (uid : String) (e : Option Nat) (n : Nat)
    (t : PasswordResetToken) : (invalidateToken uid e n t).tokenHash = t.tokenHash := by
  unfold invalidateToken
  split <;> rfl

/-- Invalidation never changes a token's owner. -/
theorem invalidateToken_userId (uid : String) (e : Option Nat) (n : Nat)
    (t : PasswordResetToken) : (invalidateToken uid e n t).userId = t.userId := by
  unfold invalidateToken
  split <;> rfl

/-- With no excluded id, invalidation leaves no token of the targeted
owner unconsumed. -/
theorem invalidateToken_used (uid : String) (n : Nat) (t : PasswordResetToken)
    (h : t.userId = uid) : (invalidateToken uid none n t).usedAt ≠ none := by
  unfold invalidateToken
  cases hu : t.usedAt with
  | none =>
    rw [if_pos]
    · simp
    · simp [h, hu]
  | some x =>
    split
    · simp
    · simp [hu]

/-- Invalidation never resurrects a consumed token. -/
theorem invalidateToken_preserves_used (uid : String) (e : Option Nat) (n : Nat)
    (t : PasswordResetToken) (h : t.usedAt ≠ none) :
    (invalidateToken uid e n t).usedAt ≠ none := by
  unfold invalidateToken
  split
  · simp
  · exact h

/-- Marking a token used never changes its hash. -/
theorem markTokenUsed_tokenHash (tid n : Nat) (t : PasswordResetToken) :
    (markTokenUsed tid n t).tokenHash = t.tokenHash := by
  unfold markTokenUsed
  split <;> rfl

/-- Marking a token used hits the token with the matching id. -/
theorem markTokenUsed_self (tid n : Nat) (t : PasswordResetToken) (h : t.id = tid) :
    (markTokenUsed tid n t).usedAt = some n := by
  simp [markTokenUsed, h]

/-- C2: issuing is claimed to invalidate all previous unconsumed tokens in
the same transaction that persists the new token. The source runs the
invalidation and the save as two separate repository statements with no
transaction: in the execution in which the save rejects, the previously
valid token has already been consumed even though no new token was
persisted — before the call the first secret validates, afterwards it does
not, and the store holds no token at all for the owner. -/
theorem requestPasswordReset_partial_failure_cex :
    (requestPasswordResetUpTo cexHash "u1" "sec2" 7 500 2 cexState).tokens
      = [{ cexToken with usedAt := some 500 }]
    ∧ cexToken.usedAt = none
    ∧ validateResetToken cexHash "sec1" 600 cexState = true
    ∧ validateResetToken cexHash "sec1" 600
        (requestPasswordResetUpTo cexHash "u1" "sec2" 7 500 2 cexState) = false := by
  decide

/-- C2 (amended): `requestPasswordReset` invalidates every previously
unconsumed token of the owner and persists the new token as two separate
sequential statements (not one transaction). In a fault-free execution the
invariant content of the claim holds: after one issue the only unconsumed
token of the owner is the newly persisted one, and after issuing twice for
the same owner the first secret fails `validate` at every instant (given
that the two fresh secrets hash differently and the first secret's hash
was not already stored). -/
theorem requestPasswordReset_invalidates_previous
    (H : String → String) (uid s1 s2 : String) (id1 id2 t1 t2 : Nat)
    (st st1 st2 : AuthState)
    (h1 : requestPasswordReset H uid s1 id1 t1 st = Except.ok st1)
    (h2 : requestPasswordReset H uid s2 id2 t2 st1 = Except.ok st2)
    (hfresh : ∀ tk ∈ st.tokens, tk.tokenHash ≠ H s1)
    (hneq : H s2 ≠ H s1) :
    (∀ tk ∈ st1.tokens, tk.userId = uid → tk.usedAt = none →
        tk = { id := id1, userId := uid, tokenHash := H s1,
               expiresAt := t1 + TOKEN_EXPIRATION_MINUTES * 60 * 1000, usedAt := none })
    ∧ ∀ now, validateResetToken H s1 now st2 = false := by
  cases hu : st.users.find? (fun u => u.id == uid) with
  | none => simp [requestPasswordReset, hu] at h1
  | some user =>
    have huid : user.id = uid := by
      have := List.find?_some hu
      simpa using this
    have hst1 : st1 = requestPasswordResetUpTo H uid s1 id1 t1 0 st := by
      simp only [requestPasswordReset, hu, Except.ok.injEq] at h1
      exact h1.symm
    have htoks1 : st1.tokens
        = invalidatePreviousTokens uid none t1 st.tokens
          ++ [{ id := id1, userId := user.id, tokenHash := H s1,
                expiresAt := t1 + TOKEN_EXPIRATION_MINUTES * 60 * 1000,
                usedAt := none }] := by
      rw [hst1]
      simp [requestPasswordResetUpTo, hu]
    have husers1 : st1.users = st.users := by
      rw [hst1]
      simp [requestPasswordResetUpTo, hu]
    have hu2 : st1.users.find? (fun u => u.id == uid) = some user := by
      rw [husers1]
      exact hu
    have htoks2 : st2.tokens
        = invalidatePreviousTokens uid none t2 st1.tokens
          ++ [{ id := id2, userId := user.id, tokenHash := H s2,
                expiresAt := t2 + TOKEN_EXPIRATION_MINUTES * 60 * 1000,
                usedAt := none }] := by
      have hst2 : st2 = requestPasswordResetUpTo H uid s2 id2 t2 0 st1 := by
        simp only [requestPasswordReset, hu2, Except.ok.injEq] at h2
        exact h2.symm
      rw [hst2]
      simp [requestPasswordResetUpTo, hu2]
    constructor
    · intro tk htk hkuid hknone
      rw [htoks1] at htk
      rcases List.mem_append.mp htk with hin | hin
      · exfalso
        simp only [invalidatePreviousTokens, List.mem_map] at hin
        obtain ⟨t0, ht0, ht0eq⟩ := hin
        have huid0 : t0.userId = uid := by
          rw [← invalidateToken_userId uid none t1 t0, ht0eq]
          exact hkuid
        have hne := invalidateToken_used uid t1 t0 huid0
        rw [ht0eq] at hne
        exact hne hknone
      · have htk1 : tk =
            { id := id1, userId := user.id, tokenHash := H s1,
              expiresAt := t1 + TOKEN_EXPIRATION_MINUTES * 60 * 1000,
              usedAt := none } := by
          simpa using hin
        rw [htk1, huid]
    · intro now
      have hnone : st2.tokens.find? (fun t =>
          t.tokenHash == H s1 && t.usedAt.isNone && decide (now < t.expiresAt))
          = none := by
        rw [List.find?_eq_none]
        intro tk htk hp
        simp only [Bool.and_eq_true, beq_iff_eq, Option.isNone_iff_eq_none,
          decide_eq_true_eq] at hp
        obtain ⟨⟨hk1, hk2⟩, hk3⟩ := hp
        rw [htoks2] at htk
        rcases List.mem_append.mp htk with hin | hin
        · simp only [invalidatePreviousTokens, List.mem_map] at hin
          obtain ⟨a, ha, haeq⟩ := hin
          rw [htoks1] at ha
          rcases List.mem_append.mp ha with hin1 | hin1
          · simp only [invalidatePreviousTokens, List.mem_map] at hin1
            obtain ⟨b, hb, hbeq⟩ := hin1
            apply hfresh b hb
            rw [← hk1, ← haeq, invalidateToken_tokenHash, ← hbeq,
              invalidateToken_tokenHash]
          · have ha1 : a =
                { id := id1, userId := user.id, tokenHash := H s1,
                  expiresAt := t1 + TOKEN_EXPIRATION_MINUTES * 60 * 1000,
                  usedAt := none } := by
              simpa using hin1
            have hne : (invalidateToken uid none t2 a).usedAt ≠ none := by
              apply invalidateToken_used
              rw [ha1]
              exact huid
            rw [haeq] at hne
            exact hne hk2
        · have htk2 : tk =
              { id := id2, userId := user.id, tokenHash := H s2,
                expiresAt := t2 + TOKEN_EXPIRATION_MINUTES * 60 * 1000,
                usedAt := none } := by
            simpa using hin
          apply hneq
          rw [← hk1, htk2]
      unfold validateResetToken
      rw [hnone]
      rfl

/-- Witness for the amended C2 theorem: two concrete issues for the same
owner, after which the first secret fails validation at two sample
instants. -/
theorem requestPasswordReset_invalidates_previous_witness :
    validateResetToken cexHash "secA" 250
        (requestPasswordResetUpTo cexHash "u1" "secB" 6 200 0
          (requestPasswordResetUpTo cexHash "u1" "secA" 5 100 0 cexState)) = false
    ∧ validateResetToken cexHash "secA" 100
        (requestPasswordResetUpTo cexHash "u1" "secB" 6 200 0
          (requestPasswordResetUpTo cexHash "u1" "secA" 5 100 0 cexState)) = false :=
  have h := requestPasswordReset_invalidates_previous cexHash "u1" "secA" "secB" 5 6 100 200
    cexState (requestPasswordResetUpTo cexHash "u1" "secA" 5 100 0 cexState)
    (requestPasswordResetUpTo cexHash "u1" "secB" 6 200 0
      (requestPasswordResetUpTo cexHash "u1" "secA" 5 100 0 cexState))
    rfl rfl (by decide) (by decide)
  ⟨h.2 250, h.2 100⟩

/-- C3: a successful `resetPassword` consumes the matched token, so a
second call with the same secret fails with the uniform
`Invalid or expired reset token` error and — whichever statement the
failing execution is cut at — leaves the database state completely
unchanged. The hypothesis says the stored hashes matching `H s` are unique
in the store, which holds because tokens are created from fresh random
secrets through a collision-free digest. -/
theorem resetPassword_consume_at_most_once
    (H bc : String → String) (s pw1 pw2 : String) (t1 t2 : Nat)
    (st st1 : AuthState)
    (huniq : ∀ ta ∈ st.tokens, ∀ tb ∈ st.tokens,
        ta.tokenHash = H s → tb.tokenHash = H s → ta = tb)
    (h1 : resetPassword H bc s pw1 t1 st = Except.ok st1) :
    resetPassword H bc s pw2 t2 st1
      = Except.error (AuthError.badRequest "Invalid or expired reset token")
    ∧ ∀ k, resetPasswordUpTo H bc s pw2 t2 k st1 = st1 := by
  cases hf : st.tokens.find? (fun t =>
      t.tokenHash == H s && t.usedAt.isNone && decide (t1 < t.expiresAt)) with
  | none => simp [resetPassword, hf] at h1
  | some rt =>
    have hrt_mem : rt ∈ st.tokens := List.mem_of_find?_eq_some hf
    have htoks : st1.tokens
        = invalidatePreviousTokens rt.userId (some rt.id) t1
            (st.tokens.map (markTokenUsed rt.id t1)) := by
      have hst1 : st1 = resetPasswordUpTo H bc s pw1 t1 0 st := by
        simp only [resetPassword, hf, Except.ok.injEq] at h1
        exact h1.symm
      rw [hst1]
      simp [resetPasswordUpTo, hf]
    have hnone : st1.tokens.find? (fun t =>
        t.tokenHash == H s && t.usedAt.isNone && decide (t2 < t.expiresAt)) = none := by
      rw [List.find?_eq_none]
      intro tk htk hp
      simp only [Bool.and_eq_true, beq_iff_eq, Option.isNone_iff_eq_none,
        decide_eq_true_eq] at hp
      obtain ⟨⟨hk1, hk2⟩, hk3⟩ := hp
      rw [htoks] at htk
      simp only [invalidatePreviousTokens, List.mem_map] at htk
      obtain ⟨a, ⟨b, hb, hbeq⟩, haeq⟩ := htk
      have hbh : b.tokenHash = H s := by
        rw [← hk1, ← haeq, invalidateToken_tokenHash, ← hbeq, markTokenUsed_tokenHash]
      have hbrt : b = rt := huniq b hb rt hrt_mem hbh (by
        have := List.find?_some hf
        simp only [Bool.and_eq_true, beq_iff_eq] at this
        exact this.1.1)
      have haused : a.usedAt = some t1 := by
        rw [← hbeq, hbrt]
        exact markTokenUsed_self rt.id t1 rt rfl
      have hne : (invalidateToken rt.userId (some rt.id) t1 a).usedAt ≠ none := by
        apply invalidateToken_preserves_used
        rw [haused]
        simp
      rw [haeq] at hne
      exact hne hk2
    refine ⟨by simp [resetPassword, hnone], fun k => ?_⟩
    unfold resetPasswordUpTo
    rw [hnone]

/-- Witness for C3: the secret `sec1` consumed once at the concrete state
cannot be consumed again, and a second call cut at any statement (sampled
at the credential-update cut) changes nothing. -/
theorem resetPassword_consume_at_most_once_witness :
    resetPassword cexHash cexBcrypt "sec1" "Pw2bbb" 600
        (resetPasswordUpTo cexHash cexBcrypt "sec1" "Pw1aaa" 500 0 cexState)
      = Except.error (AuthError.badRequest "Invalid or expired reset token")
    ∧ resetPasswordUpTo cexHash cexBcrypt "sec1" "Pw2bbb" 600 2
        (resetPasswordUpTo cexHash cexBcrypt "sec1" "Pw1aaa" 500 0 cexState)
      = resetPasswordUpTo cexHash cexBcrypt "sec1" "Pw1aaa" 500 0 cexState :=
  have h := resetPassword_consume_at_most_once cexHash cexBcrypt "sec1" "Pw1aaa" "Pw2bbb"
    500 600 cexState (resetPasswordUpTo cexHash cexBcrypt "sec1" "Pw1aaa" 500 0 cexState)
    (by decide) rfl
  ⟨h.1, h.2 2⟩

/-- C8: `validateResetToken` answers exactly the spec predicate — a stored
token with the secret's hash, unconsumed and unexpired, exists — and it
agrees with the success condition of `resetPassword`, whose `findOne`
carries the identical where clause; being a single read, it is embedded as
a pure function of the state. -/
theorem validateResetToken_matches_consume
    (H bc : String → String) (token pw : String) (now : Nat) (st : AuthState) :
    (validateResetToken H token now st = true ↔ validTokenExists H token now st)
    ∧ validateResetToken H token now st = (resetPassword H bc token pw now st).isOk := by
  refine ⟨⟨?_, ?_⟩, ?_⟩
  · intro hv
    unfold validateResetToken at hv
    rw [Option.isSome_iff_exists] at hv
    obtain ⟨rt, hrt⟩ := hv
    have hmem := List.mem_of_find?_eq_some hrt
    have hpred := List.find?_some hrt
    simp only [Bool.and_eq_true, beq_iff_eq, Option.isNone_iff_eq_none,
      decide_eq_true_eq] at hpred
    exact ⟨rt, hmem, hpred.1.1, hpred.1.2, hpred.2⟩
  · rintro ⟨t, hmem, hh, hu, he⟩
    unfold validateResetToken
    rw [Option.isSome_iff_ne_none]
    intro hnone
    rw [List.find?_eq_none] at hnone
    exact hnone t hmem (by simp [hh, hu, he])
  · unfold validateResetToken resetPassword
    cases hf : st.tokens.find? (fun t =>
        t.tokenHash == H token && t.usedAt.isNone && decide (now < t.expiresAt)) <;>
      simp [Except.isOk, Except.toBool]

/-- One attempt never changes the stored job options. -/
theorem afterAttempt_opts (j : QueueJob) (o : AttemptOutcome) :
    (afterAttempt j o).opts = j.opts := by
  cases o with
  | success => rfl
  | failure e =>
    simp only [afterAttempt]
    split <;> rfl

/-- Scheduling never changes the stored job options. -/
theorem runAttempts_opts (f : Nat → AttemptOutcome) :
    ∀ (fuel : Nat) (j : QueueJob), (runAttempts f fuel j).opts = j.opts
  | 0, _ => rfl
  | fuel + 1, j => by
    rw [runAttempts]
    split
    · rw [runAttempts_opts f fuel, afterAttempt_opts]
    · rfl

/-- A job outside the runnable states is left untouched by further
scheduling. -/
theorem runAttempts_stopped (f : Nat → AttemptOutcome) (fuel : Nat) (j : QueueJob)
    (h : isRunnable j.state = false) : runAttempts f fuel j = j := by
  cases fuel with
  | zero => rfl
  | succ n =>
    rw [runAttempts, if_neg]
    simp [h]

/-- Fuel for the scheduler splits into consecutive runs. -/
theorem runAttempts_add (f : Nat → AttemptOutcome) :
    ∀ (a b : Nat) (j : QueueJob),
      runAttempts f (a + b) j = runAttempts f b (runAttempts f a j)
  | 0, b, j => by rw [Nat.zero_add]; rfl
  | a + 1, b, j => by
    by_cases hr : isRunnable j.state = true
    · rw [Nat.add_right_comm, runAttempts, if_pos hr, runAttempts_add f a b]
      rw [show runAttempts f (a + 1) j
          = runAttempts f a (afterAttempt j (f j.attemptsMade)) from by
        rw [runAttempts, if_pos hr]]
    · have hf : isRunnable j.state = false := by simpa using hr
      have hs := fun fuel => runAttempts_stopped f fuel j hf
      rw [hs, hs, hs]

/-- Under a processor whose every attempt throws a recoverable error, a
runnable job exhausts the configured number of attempts and ends
`failed`. -/
theorem runAttempts_all_fail (f : Nat → AttemptOutcome)
    (hf : ∀ n, ∃ e, f n = AttemptOutcome.failure e) :
    ∀ (fuel : Nat) (j : QueueJob), isRunnable j.state = true →
      j.attemptsMade + fuel = j.opts.attempts → 0 < fuel →
      (runAttempts f fuel j).state = JobState.failed
      ∧ (runAttempts f fuel j).attemptsMade = j.opts.attempts
  | 0, _, _, _, hpos => absurd hpos (by omega)
  | fuel + 1, j, hrun, hsum, _ => by
    obtain ⟨e, he⟩ := hf j.attemptsMade
    rw [runAttempts, if_pos hrun, he]
    rcases Nat.eq_zero_or_pos fuel with hz | hpos2
    · subst hz
      have hcond : (errorIsUnrecoverable e
          || decide (j.opts.attempts ≤ j.attemptsMade + 1)) = true := by
        simp [errorIsUnrecoverable]
        omega
      simp only [afterAttempt, hcond, if_true, runAttempts]
      exact ⟨by trivial, by omega⟩
    · have hcond : (errorIsUnrecoverable e
          || decide (j.opts.attempts ≤ j.attemptsMade + 1)) = false := by
        simp [errorIsUnrecoverable]
        omega
      have ih := runAttempts_all_fail f hf fuel
        { j with attemptsMade := j.attemptsMade + 1, state := JobState.delayed }
        (by rfl)
        (by show j.attemptsMade + 1 + fuel = j.opts.attempts; omega) hpos2
      simp only [afterAttempt, hcond, Bool.false_eq_true, if_false]
      exact ih

/-- C5: a job whose template name does not resolve is claimed to fail
fatally after exactly one attempt. In the source `loadTemplate` throws a
plain `Error`, which the queue treats as recoverable under the configured
five-attempt policy: after the first attempt the job is `delayed`
(scheduled for retry), not `failed`, and the run makes all five
attempts. -/
theorem missing_template_retried_cex :
    (afterAttempt (enqueueMail ghostMailData)
        (processJob noTemplates DeliveryResult.delivered (enqueueMail ghostMailData))).state
      = JobState.delayed
    ∧ JobState.delayed ≠ JobState.failed
    ∧ (runAttempts
          (fun _ => processJob noTemplates DeliveryResult.delivered (enqueueMail ghostMailData))
          5 (enqueueMail ghostMailData)).attemptsMade = 5 := by
  decide

/-- C5 (amended): a missing template makes an attempt throw an ordinary
error, which is retried like any other failure under the default policy:
the first attempt leaves the job `delayed`, and only after the five
configured attempts does the job move to `failed`. -/
theorem missing_template_retry_policy
    (data : MailJobData) (templates : String → Option String) (d : DeliveryResult)
    (h : templates data.template = none) :
    processJob templates d (enqueueMail data)
      = AttemptOutcome.failure (MailJobError.templateMissing data.template)
    ∧ (afterAttempt (enqueueMail data)
        (processJob templates d (enqueueMail data))).state = JobState.delayed
    ∧ (runAttempts (fun _ => processJob templates d (enqueueMail data)) 5
        (enqueueMail data)).state = JobState.failed
    ∧ (runAttempts (fun _ => processJob templates d (enqueueMail data)) 5
        (enqueueMail data)).attemptsMade = 5 := by
  have hout : processJob templates d (enqueueMail data)
      = AttemptOutcome.failure (MailJobError.templateMissing data.template) := by
    simp [processJob, enqueueMail, handleSendEmail, loadTemplate, h]
  have hrun := runAttempts_all_fail (fun _ => processJob templates d (enqueueMail data))
    (fun _ => ⟨_, hout⟩) 5 (enqueueMail data) rfl rfl (by omega)
  refine ⟨hout, ?_, hrun.1, ?_⟩
  · rw [hout]
    simp [afterAttempt, errorIsUnrecoverable, enqueueMail, DEFAULT_MAIL_JOB_OPTIONS]
  · simpa [enqueueMail, DEFAULT_MAIL_JOB_OPTIONS] using hrun.2

/-- Witness for the amended C5 theorem at a concrete job. -/
theorem missing_template_retry_policy_witness :
    processJob noTemplates DeliveryResult.delivered (enqueueMail ghostMailData)
      = AttemptOutcome.failure (MailJobError.templateMissing ghostMailData.template)
    ∧ (afterAttempt (enqueueMail ghostMailData)
        (processJob noTemplates DeliveryResult.delivered (enqueueMail ghostMailData))).state
      = JobState.delayed
    ∧ (runAttempts
          (fun _ => processJob noTemplates DeliveryResult.delivered (enqueueMail ghostMailData))
          5 (enqueueMail ghostMailData)).state = JobState.failed
    ∧ (runAttempts
          (fun _ => processJob noTemplates DeliveryResult.delivered (enqueueMail ghostMailData))
          5 (enqueueMail ghostMailData)).attemptsMade = 5 :=
  missing_template_retry_policy ghostMailData noTemplates DeliveryResult.delivered rfl

/-- C6: a job whose delivery call fails with a retryable error on every
attempt makes all `attempts = 5` configured attempts, then moves to
`failed` and is retained (`removeOnFail = false`) rather than dropped —
further scheduling fuel changes nothing. The configured backoff is
exponential with base delay 3000 ms, so the retry scheduled after the n-th
failed attempt waits `3000 * 2 ^ (n - 1)` ms, a strictly increasing
delay sequence. -/
theorem retryable_failure_retry_and_retention
    (data : MailJobData) (attempt : Nat → AttemptOutcome) (status : Nat → Option Nat)
    (h : ∀ n, attempt n = AttemptOutcome.failure (MailJobError.brevoError (status n))) :
    (runAttempts attempt 5 (enqueueMail data)).state = JobState.failed
    ∧ (runAttempts attempt 5 (enqueueMail data)).attemptsMade
        = DEFAULT_MAIL_JOB_OPTIONS.attempts
    ∧ retainedAfterRun (runAttempts attempt 5 (enqueueMail data)) = true
    ∧ (∀ k, runAttempts attempt (5 + k) (enqueueMail data)
        = runAttempts attempt 5 (enqueueMail data))
    ∧ DEFAULT_MAIL_JOB_OPTIONS.attempts = 5
    ∧ DEFAULT_MAIL_JOB_OPTIONS.backoff.type = "exponential"
    ∧ DEFAULT_MAIL_JOB_OPTIONS.backoff.delay = 3000
    ∧ DEFAULT_MAIL_JOB_OPTIONS.removeOnFail = false
    ∧ (∀ n, exponentialBackoffDelay DEFAULT_MAIL_JOB_OPTIONS.backoff.delay n
        = 3000 * 2 ^ (n - 1))
    ∧ (∀ n m, 1 ≤ n → n < m →
        exponentialBackoffDelay DEFAULT_MAIL_JOB_OPTIONS.backoff.delay n
          < exponentialBackoffDelay DEFAULT_MAIL_JOB_OPTIONS.backoff.delay m) := by
  have hrun := runAttempts_all_fail attempt (fun n => ⟨_, h n⟩) 5
    (enqueueMail data) rfl rfl (by omega)
  have hopts := runAttempts_opts attempt 5 (enqueueMail data)
  refine ⟨hrun.1, ?_, ?_, ?_, rfl, rfl, rfl, rfl, fun n => rfl, ?_⟩
  · simpa [enqueueMail] using hrun.2
  · simp only [retainedAfterRun, hrun.1, hopts]
    rfl
  · intro k
    rw [runAttempts_add attempt 5 k (enqueueMail data)]
    apply runAttempts_stopped
    rw [hrun.1]
    rfl
  · intro n m h1 h2
    show 3000 * 2 ^ (n - 1) < 3000 * 2 ^ (m - 1)
    have hp : (2 : Nat) ^ (n - 1) < 2 ^ (m - 1) :=
      Nat.pow_lt_pow_of_lt (by norm_num) (by omega)
    exact Nat.mul_lt_mul_of_pos_left hp (by norm_num)

/-- Witness for C6: an always-rate-limited delivery, with the retained
terminal failure, the stability under extra fuel sampled at three more
rounds, and the delay growth sampled between the first and second
retries. -/
theorem retryable_failure_retry_and_retention_witness :
    (runAttempts (fun _ => AttemptOutcome.failure (MailJobError.brevoError (some 429))) 5
        (enqueueMail ghostMailData)).state = JobState.failed
    ∧ (runAttempts (fun _ => AttemptOutcome.failure (MailJobError.brevoError (some 429))) 5
        (enqueueMail ghostMailData)).attemptsMade = DEFAULT_MAIL_JOB_OPTIONS.attempts
    ∧ retainedAfterRun
        (runAttempts (fun _ => AttemptOutcome.failure (MailJobError.brevoError (some 429))) 5
          (enqueueMail ghostMailData)) = true
    ∧ runAttempts (fun _ => AttemptOutcome.failure (MailJobError.brevoError (some 429))) (5 + 3)
        (enqueueMail ghostMailData)
      = runAttempts (fun _ => AttemptOutcome.failure (MailJobError.brevoError (some 429))) 5
        (enqueueMail ghostMailData)
    ∧ exponentialBackoffDelay DEFAULT_MAIL_JOB_OPTIONS.backoff.delay 2 = 3000 * 2 ^ (2 - 1)
    ∧ exponentialBackoffDelay DEFAULT_MAIL_JOB_OPTIONS.backoff.delay 1
        < exponentialBackoffDelay DEFAULT_MAIL_JOB_OPTIONS.backoff.delay 2 :=
  have h := retryable_failure_retry_and_retention ghostMailData
    (fun _ => AttemptOutcome.failure (MailJobError.brevoError (some 429)))
    (fun _ => some 429) (fun _ => rfl)
  ⟨h.1, h.2.1, h.2.2.1, h.2.2.2.1 3, h.2.2.2.2.2.2.2.2.1 2,
    h.2.2.2.2.2.2.2.2.2 1 2 (by omega) (by omega)⟩
